import Mathlib

/-!
# Verification of the sats-stacker backend caching service

Shallow embedding of `src/db.js` (the final `server.js` variant with
pruning, lines 173-349): the live-price cache handler (`GET /btc-data`),
the historical-price handler (`GET /btc-price-history/:date`), the
SQLite-backed historical-price store (`getPriceFromCache`,
`savePriceToCache`, `pruneOldCacheEntries`), and the theorems settling
the behavioural claims about them.

Modelling conventions:
- Timestamps are `Int` milliseconds (JS `Date.now()` values; JS number
  subtraction on such values is exact integer arithmetic).
- A JSON number is modelled as `Rat` (every JSON numeric literal denotes
  a rational); a JSON field value that may be `null` is `JPrice`;
  a possibly-absent (`undefined`) field is an `Option`.
- The SQLite table `btc_price_cache (date TEXT PRIMARY KEY, price_data
  TEXT, timestamp INTEGER)` is a list of rows; `INSERT OR REPLACE`
  removes any row with the same key.  `price_data` holds the payload
  value itself (JSON.stringify/JSON.parse round-trip is the identity on
  these payload values).
- Each request handler is a pure function of the current time, the
  mutable state it touches, the request parameters and the upstream
  response; it returns the HTTP response, the new state, and a `Bool`
  flag recording whether the upstream API was called during the request.
-/

namespace SatsStacker

/-- A JSON value that can sit in a per-currency price field: a number
(`Rat`, exact for every JSON numeric literal) or `null`. -/
inductive JPrice where
  | jnull : JPrice
  | jnum (x : Rat) : JPrice
deriving DecidableEq, Repr

/-- JavaScript truthiness of a price field read off a JSON object:
`undefined` (absent key) is handled by `Option`; of the present values,
`null` and `0` are falsy, every other number is truthy.
(JSON cannot encode `NaN`, so a number is falsy exactly when it is 0.) -/
def truthy : JPrice → Bool
  | .jnull => false
  | .jnum x => x != 0

/-! ## Historical-price store (SQLite table `btc_price_cache`) -/

/-- The payload stored for a historical request: `{ date, prices }`
where `prices` maps currency code to price, in insertion order
(JS object keys keep insertion order). -/
structure HistPayload where
  date : String
  prices : List (String × JPrice)
deriving DecidableEq, Repr

/-- One row of `btc_price_cache`. `date` is the (composite) key column,
`price_data` the stored payload, `timestamp` the write time in ms. -/
structure CacheRow where
  date : String
  price_data : HistPayload
  timestamp : Int
deriving DecidableEq, Repr

/-- The `btc_price_cache` table as a list of rows. -/
abbrev CacheDB := List CacheRow

/-- Constant `24 * 60 * 60 * 1000`, the `oneDayMs` value of `getPriceFromCache`
and the default `maxAgeMs` of `pruneOldCacheEntries`. -/
def oneDayMs : Int := 24 * 60 * 60 * 1000

/-- Function `getPriceFromCache(date)` (src/db.js:186-198): select the row whose
key column equals `date`; if it exists and `Date.now() - row.timestamp
< oneDayMs`, return the parsed payload, else `null`. -/
def getPriceFromCache (now : Int) (db : CacheDB) (date : String) : Option HistPayload :=
  match db.find? (fun r => r.date == date) with
  | some row => if now - row.timestamp < oneDayMs then some row.price_data else none
  | none => none

/-- Function `savePriceToCache(date, priceData)` (src/db.js:208-216):
`INSERT OR REPLACE` of `(date, priceData, Date.now())` — any existing
row with the same key is replaced. -/
def savePriceToCache (now : Int) (db : CacheDB) (date : String)
    (priceData : HistPayload) : CacheDB :=
  ⟨date, priceData, now⟩ :: db.filter (fun r => r.date != date)

/-- Function `pruneOldCacheEntries(maxAgeMs = 24h)` (src/db.js:200-206):
`DELETE FROM btc_price_cache WHERE timestamp < Date.now() - maxAgeMs`;
returns the surviving table and `deleted.changes`, the number of rows
removed. -/
def pruneOldCacheEntries (now : Int) (db : CacheDB)
    (maxAgeMs : Int := oneDayMs) : CacheDB × Nat :=
  let cutoff := now - maxAgeMs
  let kept := db.filter (fun r => decide (cutoff ≤ r.timestamp))
  (kept, db.length - kept.length)

/-! ## Historical-price request handler (`GET /btc-price-history/:date`) -/

/-- JavaScript `toLowerCase()` on the strings this service compares (ASCII
currency codes): lower-case every character.  Extensionally equal to
`String.toLower` (which maps `Char.toLower` over the characters) but
stated on the character list so that the kernel can evaluate it. -/
def toLowerStr (s : String) : String := ⟨s.data.map Char.toLower⟩

/-- JavaScript `toUpperCase()`, same remark as `toLowerStr`. -/
def toUpperStr (s : String) : String := ⟨s.data.map Char.toUpper⟩

/-- The supported currency list of the historical handler
(src/db.js:277). -/
def supportedCurrencies : List String := ["usd", "aud", "cad", "eur", "gbp"]

/-- The anchored date check `/^\d{2}-\d{2}-\d{4}$/.test(date)`
(src/db.js:280). -/
def dateOk (s : String) : Bool :=
  match s.data with
  | [a, b, '-', c, d, '-', e, f, g, h] =>
    a.isDigit && b.isDigit && c.isDigit && d.isDigit &&
    e.isDigit && f.isDigit && g.isDigit && h.isDigit
  | _ => false

/-- Effective currency list (src/db.js:276, 287-291):
`currencyParam = req.query.currency?.toString().toLowerCase()`;
if `currencyParam` is truthy (present and non-empty) and contained in
the supported list, use the singleton, otherwise the full supported
list. -/
def effectiveCurrencies (currencyQ : Option String) : List String :=
  match currencyQ.map toLowerStr with
  | some c => if c != "" && supportedCurrencies.contains c then [c] else supportedCurrencies
  | none => supportedCurrencies

/-- The composite cache key (src/db.js:296):
`` `${date}-${currenciesToReturn.join(",")}` ``. -/
def histCacheKey (date : String) (currencyQ : Option String) : String :=
  date ++ "-" ++ String.intercalate "," (effectiveCurrencies currencyQ)

/-- Outcome of the upstream historical fetch as the handler observes it:
`fail` is any thrown error (fetch rejection, `!response.ok`, body that
is not JSON); `okBody market` is a decoded body, where `market` is
`data?.market_data?.current_price` — `none` when that chain is
missing/falsy, otherwise the price object as an association list. -/
inductive Upstream where
  | fail : Upstream
  | okBody (market : Option (List (String × JPrice))) : Upstream
deriving DecidableEq, Repr

/-- The filtering loop (src/db.js:321-326): for each currency of the
effective list in order, keep it iff `allPrices[currency]` is truthy. -/
def filterPrices (allPrices : List (String × JPrice)) (cs : List String) :
    List (String × JPrice) :=
  cs.filterMap (fun c =>
    match allPrices.lookup c with
    | some v => if truthy v then some (c, v) else none
    | none => none)

/-- HTTP responses of the historical handler: `ok` is `200 res.json`,
`badRequest` is `res.status(400).json({error: msg})`, `serverError` is
`res.status(500).json({error: msg})`. -/
inductive HistResponse where
  | ok (p : HistPayload) : HistResponse
  | badRequest (msg : String) : HistResponse
  | serverError (msg : String) : HistResponse
deriving DecidableEq, Repr

/-- Handler `GET /btc-price-history/:date` (src/db.js:273-345): validate the
date, build the composite key, try the store, otherwise fetch upstream,
check the price-data section, filter to the effective currencies,
reject if empty, else persist and return `{date, prices}`.
Result: (response, table after the request, whether upstream was
called). -/
def btcPriceHistory (now : Int) (db : CacheDB) (date : String)
    (currencyQ : Option String) (up : Upstream) :
    HistResponse × CacheDB × Bool :=
  if dateOk date then
    match getPriceFromCache now db (histCacheKey date currencyQ) with
    | some cached => (.ok cached, db, false)
    | none =>
      match up with
      | .fail => (.serverError "Failed to fetch BTC price history", db, true)
      | .okBody none => (.badRequest "Price data not available for this date", db, true)
      | .okBody (some allPrices) =>
        let filteredPrices := filterPrices allPrices (effectiveCurrencies currencyQ)
        if filteredPrices.isEmpty then
          (.badRequest "No supported currencies found for this date", db, true)
        else
          (.ok ⟨date, filteredPrices⟩,
           savePriceToCache now db (histCacheKey date currencyQ) ⟨date, filteredPrices⟩,
           true)
  else
    (.badRequest "Invalid date format. Use dd-mm-yyyy.", db, false)

/-! ## Live-price cache (`GET /btc-data`) -/

/-- One reshaped per-currency record of the `/btc-data` response
(src/db.js:254-258).  Each field is the raw JSON value read off
`data.bitcoin`; `none` models a missing key (`undefined`). -/
structure CurrencyEntry where
  price : Option JPrice
  percentChange24h : Option JPrice
  marketCap : Option JPrice
deriving DecidableEq, Repr

/-- The reshaped `/btc-data` payload: uppercase currency code to entry,
in construction order. -/
abbrev BtcData := List (String × CurrencyEntry)

/-- The fixed currency list of the live handler (src/db.js:237). -/
def liveCurrencies : List String := ["usd", "aud", "gbp", "eur", "cad"]

/-- The reshaping loop (src/db.js:251-259): for each fixed currency,
read `data.bitcoin[c]`, `data.bitcoin[c + "_24h_change"]`,
`data.bitcoin[c + "_market_cap"]` and store them under the uppercased
code. A missing key simply yields `undefined` (`none`); no error. -/
def mkBtcData (bitcoin : List (String × JPrice)) : BtcData :=
  liveCurrencies.map (fun c =>
    (toUpperStr c,
     ⟨bitcoin.lookup c,
      bitcoin.lookup (c ++ "_24h_change"),
      bitcoin.lookup (c ++ "_market_cap")⟩))

/-- The mutable module state of the live handler:
`cachedBtcData` and `lastFetchTime` (src/db.js:221-222; initially
`null` and `0`). -/
structure LiveState where
  cachedBtcData : Option BtcData
  lastFetchTime : Int
deriving DecidableEq, Repr

/-- Constant `CACHE_DURATION_MS = 5 * 60 * 1000` (src/db.js:223). -/
def cacheDurationMs : Int := 5 * 60 * 1000

/-- Outcome of the upstream simple-price fetch: `fail` is any thrown
error before the body is read (fetch rejection, `!response.ok`, bad
JSON); `okBody b` is a decoded body where `b` is `data.bitcoin` —
`none` when that key is missing/null (reading a property of it then
throws a TypeError, caught by the same handler). -/
inductive LiveUpstream where
  | fail : LiveUpstream
  | okBody (bitcoin : Option (List (String × JPrice))) : LiveUpstream
deriving DecidableEq, Repr

/-- HTTP responses of the live handler: `ok` is `200 res.json`,
`serverError` is `res.status(500).json({error: msg})`. -/
inductive LiveResponse where
  | ok (d : BtcData) : LiveResponse
  | serverError (msg : String) : LiveResponse
deriving DecidableEq, Repr

/-- Handler `GET /btc-data` (src/db.js:228-270): if `cachedBtcData` is truthy
and `now - lastFetchTime < CACHE_DURATION_MS`, serve the cache;
otherwise fetch, reshape, store `(btcData, now)` and return it; any
thrown error (upstream failure or missing `bitcoin` section) yields the
500 response and leaves the state untouched.
Result: (response, new state, whether upstream was called). -/
def btcData (now : Int) (st : LiveState) (up : LiveUpstream) :
    LiveResponse × LiveState × Bool :=
  match st.cachedBtcData with
  | some d =>
    if now - st.lastFetchTime < cacheDurationMs then
      (.ok d, st, false)
    else
      btcRefresh now st up
  | none => btcRefresh now st up
where
  /-- The body of the `try` block: the refresh path. -/
  btcRefresh (now : Int) (st : LiveState) (up : LiveUpstream) :
      LiveResponse × LiveState × Bool :=
    match up with
    | .fail => (.serverError "Failed to fetch BTC data", st, true)
    | .okBody none => (.serverError "Failed to fetch BTC data", st, true)
    | .okBody (some bitcoin) =>
      let d := mkBtcData bitcoin
      (.ok d, ⟨some d, now⟩, true)

/-! ## Helper lemmas -/

/-- Reading back a key just written returns the written payload as long
as the entry is younger than the retention window. -/
theorem getPriceFromCache_save_same (now₁ now₂ : Int) (db : CacheDB) (k : String)
    (p : HistPayload) (h : now₂ - now₁ < oneDayMs) :
    getPriceFromCache now₂ (savePriceToCache now₁ db k p) k = some p := by
  simp [getPriceFromCache, savePriceToCache, List.find?, h]

/-- The refresh path of the live handler always performs an upstream
call. -/
theorem btcRefresh_calls_upstream (now : Int) (st : LiveState) (up : LiveUpstream) :
    (btcData.btcRefresh now st up).2.2 = true := by
  cases up with
  | fail => rfl
  | okBody b => cases b <;> rfl

/-! ## Claims -/

/-- C1 — For every historical-price request whose composite key is
present in the store with `now - writtenAt < 24h`, the stored payload is
returned verbatim with no upstream call; and after a first request that
did call upstream and answered `ok r` producing table `db₁`, a second
identical `(date, currency)` request within the retention window makes
no upstream call and returns exactly `r`, leaving the table unchanged —
so the pair performs exactly one upstream call. -/
theorem c1_hist_cache_hit_and_idempotent :
    (∀ (now : Int) (db : CacheDB) (date : String) (q : Option String) (up : Upstream)
       (p : HistPayload),
       dateOk date = true →
       getPriceFromCache now db (histCacheKey date q) = some p →
       btcPriceHistory now db date q up = (.ok p, db, false))
  ∧ (∀ (now₁ now₂ : Int) (db db₁ : CacheDB) (date : String) (q : Option String)
       (up₁ up₂ : Upstream) (r : HistPayload),
       btcPriceHistory now₁ db date q up₁ = (.ok r, db₁, true) →
       now₂ - now₁ < oneDayMs →
       btcPriceHistory now₂ db₁ date q up₂ = (.ok r, db₁, false)) := by
  constructor
  · intro now db date q up p hdate hcache
    simp [btcPriceHistory, hdate, hcache]
  · intro now₁ now₂ db db₁ date q up₁ up₂ r h hwin
    unfold btcPriceHistory at h
    by_cases hdate : dateOk date
    · rw [if_pos hdate] at h
      cases hc : getPriceFromCache now₁ db (histCacheKey date q) with
      | some cached => rw [hc] at h; simp at h
      | none =>
        rw [hc] at h
        cases up₁ with
        | fail => simp at h
        | okBody market =>
          cases market with
          | none => simp at h
          | some allPrices =>
            by_cases he : (filterPrices allPrices (effectiveCurrencies q)).isEmpty = true
            · simp [he] at h
            · simp [he] at h
              obtain ⟨hr, hdb⟩ := h
              subst hr
              subst hdb
              simp [btcPriceHistory, hdate,
                getPriceFromCache_save_same now₁ now₂ db _ _ hwin]
    · rw [if_neg hdate] at h
      simp at h

/-- Witness for C1 at concrete inputs: a one-row table younger than a
day is served from the store, and a cold-start request followed by an
identical one within the window returns the same payload with the
upstream flag false. -/
theorem c1_witness :
    btcPriceHistory 1000 [⟨"19-05-2025-usd", ⟨"19-05-2025", [("usd", .jnum 65000)]⟩, 0⟩]
        "19-05-2025" (some "usd") .fail
      = (.ok ⟨"19-05-2025", [("usd", .jnum 65000)]⟩,
         [⟨"19-05-2025-usd", ⟨"19-05-2025", [("usd", .jnum 65000)]⟩, 0⟩], false)
  ∧ btcPriceHistory 3000
        [⟨"19-05-2025-usd", ⟨"19-05-2025", [("usd", .jnum 65000)]⟩, 2000⟩]
        "19-05-2025" (some "usd") .fail
      = (.ok ⟨"19-05-2025", [("usd", .jnum 65000)]⟩,
         [⟨"19-05-2025-usd", ⟨"19-05-2025", [("usd", .jnum 65000)]⟩, 2000⟩], false) :=
  ⟨c1_hist_cache_hit_and_idempotent.1 1000 _ "19-05-2025" (some "usd") .fail _
      (by decide) (by decide),
   c1_hist_cache_hit_and_idempotent.2 2000 3000 [] _ "19-05-2025" (some "usd")
      (.okBody (some [("usd", .jnum 65000)])) .fail _ (by decide) (by decide)⟩

/-- C2 — If the live cache holds a payload and `now - fetchedAt <
5 minutes`, the cached payload is returned unchanged, no upstream call
is made and the state is unmodified; a request more than 5 minutes after
the last successful fetch performs an upstream call. -/
theorem c2_live_cache_ttl :
    (∀ (now : Int) (st : LiveState) (up : LiveUpstream) (d : BtcData),
       st.cachedBtcData = some d →
       now - st.lastFetchTime < cacheDurationMs →
       btcData now st up = (.ok d, st, false))
  ∧ (∀ (now : Int) (st : LiveState) (up : LiveUpstream),
       cacheDurationMs < now - st.lastFetchTime →
       (btcData now st up).2.2 = true) := by
  constructor
  · intro now st up d hd hfresh
    simp [btcData, hd, hfresh]
  · intro now st up hstale
    have hn : ¬ (now - st.lastFetchTime < cacheDurationMs) := by omega
    cases hd : st.cachedBtcData with
    | some d => simp [btcData, hd, hn, btcRefresh_calls_upstream]
    | none => simp [btcData, hd, btcRefresh_calls_upstream]

/-- Witness for C2 at concrete inputs: a fresh cache is served without
an upstream call; a stale one triggers the upstream call. -/
theorem c2_witness :
    btcData 1000 ⟨some [("USD", ⟨some (.jnum 1), none, none⟩)], 0⟩ .fail
      = (.ok [("USD", ⟨some (.jnum 1), none, none⟩)],
         ⟨some [("USD", ⟨some (.jnum 1), none, none⟩)], 0⟩, false)
  ∧ (btcData 600000 ⟨some [("USD", ⟨some (.jnum 1), none, none⟩)], 0⟩ .fail).2.2 = true :=
  ⟨c2_live_cache_ttl.1 1000 _ .fail _ rfl (by decide),
   c2_live_cache_ttl.2 600000 _ .fail (by decide)⟩

/-- C3 — A pruning sweep keeps exactly the rows with
`now - writtenAt ≤ 24h` (equivalently it deletes exactly those strictly
older than 24 hours); on the 25h/1h pair it removes the first row only
and reports one deletion; and a second sweep at the same instant with
no intervening writes deletes nothing. -/
theorem c3_prune_exact_and_idempotent :
    (∀ (now : Int) (db : CacheDB) (row : CacheRow),
       row ∈ (pruneOldCacheEntries now db).1 ↔ row ∈ db ∧ now - row.timestamp ≤ oneDayMs)
  ∧ (∀ (now : Int) (k₁ k₂ : String) (p₁ p₂ : HistPayload),
       pruneOldCacheEntries now
           [⟨k₁, p₁, now - 25 * 60 * 60 * 1000⟩, ⟨k₂, p₂, now - 60 * 60 * 1000⟩]
         = ([⟨k₂, p₂, now - 60 * 60 * 1000⟩], 1))
  ∧ (∀ (now : Int) (db : CacheDB),
       pruneOldCacheEntries now (pruneOldCacheEntries now db).1
         = ((pruneOldCacheEntries now db).1, 0)) := by
  refine ⟨?_, ?_, ?_⟩
  · intro now db row
    simp only [pruneOldCacheEntries, List.mem_filter, decide_eq_true_eq]
    exact and_congr_right fun _ => by omega
  · intro now k₁ k₂ p₁ p₂
    have h1 : decide (now - oneDayMs ≤ now - 25 * 60 * 60 * 1000) = false := by
      simp only [decide_eq_false_iff_not, not_le, oneDayMs]; omega
    have h2 : decide (now - oneDayMs ≤ now - 60 * 60 * 1000) = true := by
      simp only [decide_eq_true_eq, oneDayMs]; omega
    simp only [pruneOldCacheEntries, List.filter, h1, h2]
    simp
  · intro now db
    have hf : ((db.filter fun r => decide (now - oneDayMs ≤ r.timestamp)).filter
          fun r => decide (now - oneDayMs ≤ r.timestamp))
        = db.filter fun r => decide (now - oneDayMs ≤ r.timestamp) :=
      List.filter_eq_self.mpr fun a ha => (List.mem_filter.mp ha).2
    simp [pruneOldCacheEntries, hf]

/-- C4 — A historical-price request with a date matching
`\d{2}-\d{2}-\d{4}` is accepted for further processing (its response is
never the invalid-format error), and any other date string is rejected
with the 400 response `"Invalid date format. Use dd-mm-yyyy."` before
any network or storage call: the table is returned untouched, the
upstream flag is false, and the response is the same whatever the table
and the upstream would have answered. -/
theorem c4_date_validation :
    (∀ (now : Int) (db : CacheDB) (date : String) (q : Option String) (up : Upstream),
       dateOk date = false →
       btcPriceHistory now db date q up
         = (.badRequest "Invalid date format. Use dd-mm-yyyy.", db, false))
  ∧ (∀ (now : Int) (db : CacheDB) (date : String) (q : Option String) (up : Upstream),
       dateOk date = true →
       (btcPriceHistory now db date q up).1
         ≠ .badRequest "Invalid date format. Use dd-mm-yyyy.") := by
  constructor
  · intro now db date q up hdate
    simp [btcPriceHistory, hdate]
  · intro now db date q up hdate
    unfold btcPriceHistory
    rw [if_pos hdate]
    cases getPriceFromCache now db (histCacheKey date q) with
    | some cached => simp
    | none =>
      cases up with
      | fail => simp
      | okBody market =>
        cases market with
        | none => simp
        | some ap =>
          by_cases he : (filterPrices ap (effectiveCurrencies q)).isEmpty = true
          · simp [he]
          · simp [he]

/-- Witness for C4: a malformed date is rejected with the exact
message; a well-formed one is not. -/
theorem c4_witness :
    btcPriceHistory 0 [] "bad-date" none .fail
      = (.badRequest "Invalid date format. Use dd-mm-yyyy.", [], false)
  ∧ (btcPriceHistory 0 [] "19-05-2025" none .fail).1
      ≠ .badRequest "Invalid date format. Use dd-mm-yyyy." :=
  ⟨c4_date_validation.1 0 [] "bad-date" none .fail (by decide),
   c4_date_validation.2 0 [] "19-05-2025" none .fail (by decide)⟩

/-- C5 — The effective currency set is the singleton of the caller's
currency (lower-cased) when its lower-casing lies in the supported list
{usd, aud, cad, eur, gbp}; in every other case — unrecognized value or
absent parameter — it is the full supported list, never an error. -/
theorem c5_effective_currency_set :
    (∀ s : String, toLowerStr s ∈ supportedCurrencies →
       effectiveCurrencies (some s) = [toLowerStr s])
  ∧ (∀ s : String, toLowerStr s ∉ supportedCurrencies →
       effectiveCurrencies (some s) = supportedCurrencies)
  ∧ effectiveCurrencies none = supportedCurrencies := by
  refine ⟨?_, ?_, rfl⟩
  · intro s hs
    have hne : (toLowerStr s != "") = true := by
      simp only [bne_iff_ne, ne_eq]
      intro h
      rw [h] at hs
      simp [supportedCurrencies] at hs
    have hc : supportedCurrencies.contains (toLowerStr s) = true := by simpa using hs
    simp [effectiveCurrencies, hne, hc]
    exact fun h => absurd hs h
  · intro s hs
    have hc : supportedCurrencies.contains (toLowerStr s) = false := by
      simpa using hs
    simp [effectiveCurrencies, hc]
    exact fun _ h => absurd h hs

/-- Witness for C5: an upper-case recognized currency yields its
lower-cased singleton; an unrecognized one yields the full list. -/
theorem c5_witness :
    effectiveCurrencies (some "USD") = ["usd"]
  ∧ effectiveCurrencies (some "xyz") = supportedCurrencies :=
  ⟨by simpa using c5_effective_currency_set.1 "USD" (by decide),
   c5_effective_currency_set.2.1 "xyz" (by decide)⟩

/-- C6 — The composite cache key is the date, `"-"`, then the effective
currency list joined with `","` in its exact order; the keys for
`currency=usd` and `currency=eur` on the same date differ, and running
the two requests on an empty table leaves two distinct stored entries
rather than one merged entry. -/
theorem c6_composite_key :
    (∀ (date : String) (q : Option String),
       histCacheKey date q
         = date ++ "-" ++ String.intercalate "," (effectiveCurrencies q))
  ∧ (∀ date : String,
       histCacheKey date (some "usd") ≠ histCacheKey date (some "eur"))
  ∧ ((btcPriceHistory 0
        (btcPriceHistory 0 [] "19-05-2025" (some "usd")
          (.okBody (some [("usd", .jnum 65000), ("eur", .jnum 60000)]))).2.1
        "19-05-2025" (some "eur")
        (.okBody (some [("usd", .jnum 65000), ("eur", .jnum 60000)]))).2.1.map CacheRow.date
      = ["19-05-2025-eur", "19-05-2025-usd"]) := by
  refine ⟨fun date q => rfl, ?_, by decide⟩
  intro date h
  have e1 : effectiveCurrencies (some "usd") = ["usd"] := by decide
  have e2 : effectiveCurrencies (some "eur") = ["eur"] := by decide
  unfold histCacheKey at h
  rw [e1, e2] at h
  have i1 : String.intercalate "," ["usd"] = "usd" := by decide
  have i2 : String.intercalate "," ["eur"] = "eur" := by decide
  rw [i1, i2] at h
  have h2 := congrArg String.data h
  simp only [String.data_append] at h2
  have h3 := List.append_cancel_left h2
  simp at h3

/-- C7 — On a historical-price cache miss with a successful upstream
response, the request answers a 400 no-data error exactly when the
response lacks the `market_data.current_price` section or when
filtering it to the effective currencies yields nothing; otherwise the
filtered `{date, prices}` is persisted under the composite key and
returned. -/
theorem c7_nodata_exactly :
    ∀ (now : Int) (db : CacheDB) (date : String) (q : Option String)
      (market : Option (List (String × JPrice))),
      dateOk date = true →
      getPriceFromCache now db (histCacheKey date q) = none →
      (((btcPriceHistory now db date q (.okBody market)).1
            = .badRequest "Price data not available for this date"
          ∨ (btcPriceHistory now db date q (.okBody market)).1
            = .badRequest "No supported currencies found for this date")
        ↔ (market = none
            ∨ ∃ ap, market = some ap ∧ filterPrices ap (effectiveCurrencies q) = []))
      ∧ (∀ ap, market = some ap →
           filterPrices ap (effectiveCurrencies q) ≠ [] →
           btcPriceHistory now db date q (.okBody market)
             = (.ok ⟨date, filterPrices ap (effectiveCurrencies q)⟩,
                savePriceToCache now db (histCacheKey date q)
                  ⟨date, filterPrices ap (effectiveCurrencies q)⟩,
                true)) := by
  intro now db date q market hdate hmiss
  constructor
  · cases market with
    | none => simp [btcPriceHistory, hdate, hmiss]
    | some ap =>
      by_cases he : (filterPrices ap (effectiveCurrencies q)).isEmpty = true
      · have hfe : filterPrices ap (effectiveCurrencies q) = [] := by simpa using he
        simp [btcPriceHistory, hdate, hmiss, he, hfe]
      · have hfe : filterPrices ap (effectiveCurrencies q) ≠ [] := by
          intro hnil
          exact he (by simp [hnil])
        simp [btcPriceHistory, hdate, hmiss, he, hfe]
  · intro ap hap hne
    subst hap
    have he : (filterPrices ap (effectiveCurrencies q)).isEmpty = false := by
      simp [hne]
    simp [btcPriceHistory, hdate, hmiss, he]

/-- Witness for C7: a cold request for `currency=usd` with upstream
prices for usd and eur returns and persists the usd-only payload. -/
theorem c7_witness :
    btcPriceHistory 0 [] "19-05-2025" (some "usd")
        (.okBody (some [("usd", .jnum 65000), ("eur", .jnum 60000)]))
      = (.ok ⟨"19-05-2025", [("usd", .jnum 65000)]⟩,
         [⟨"19-05-2025-usd", ⟨"19-05-2025", [("usd", .jnum 65000)]⟩, 0⟩], true) :=
  (c7_nodata_exactly 0 [] "19-05-2025" (some "usd")
      (some [("usd", .jnum 65000), ("eur", .jnum 60000)])
      (by decide) (by decide)).2 _ rfl (by decide)

/-- When the live cache is empty or expired the handler takes the
refresh path, whatever the upstream outcome. -/
theorem btcData_stale (now : Int) (st : LiveState) (up : LiveUpstream)
    (h : st.cachedBtcData = none ∨ cacheDurationMs ≤ now - st.lastFetchTime) :
    btcData now st up = btcData.btcRefresh now st up := by
  rcases h with h | h
  · simp [btcData, h]
  · have hn : ¬ (now - st.lastFetchTime < cacheDurationMs) := by omega
    cases hd : st.cachedBtcData with
    | some d => simp [btcData, hd, hn]
    | none => simp [btcData, hd]

/-- C8 counterexample — a refresh whose upstream body has a `bitcoin`
section but no `aud` (nor gbp, eur, cad) field does NOT fail with any
distinct data-shape error: the handler answers 200 with `undefined`
fields passed through, and even caches that payload. -/
theorem c8_counterexample :
    btcData 0 ⟨none, 0⟩ (.okBody (some [("usd", .jnum 65000)]))
      = (.ok [("USD", ⟨some (.jnum 65000), none, none⟩),
              ("AUD", ⟨none, none, none⟩),
              ("GBP", ⟨none, none, none⟩),
              ("EUR", ⟨none, none, none⟩),
              ("CAD", ⟨none, none, none⟩)],
         ⟨some [("USD", ⟨some (.jnum 65000), none, none⟩),
                ("AUD", ⟨none, none, none⟩),
                ("GBP", ⟨none, none, none⟩),
                ("EUR", ⟨none, none, none⟩),
                ("CAD", ⟨none, none, none⟩)], 0⟩,
         true) := by decide

/-- C8 (amended) — On a refresh, the current-price operation fails with
the generic 500 error when the upstream call fails or returns a
non-success status, and also when the payload lacks the `bitcoin`
section entirely; but a missing per-currency field is NOT detected as a
distinct error: the reshaped payload is returned (and cached) with the
missing field as `undefined`. -/
theorem c8_amended_error_handling :
    ∀ (now : Int) (st : LiveState),
      (st.cachedBtcData = none ∨ cacheDurationMs ≤ now - st.lastFetchTime) →
      (btcData now st .fail = (.serverError "Failed to fetch BTC data", st, true))
      ∧ (btcData now st (.okBody none)
          = (.serverError "Failed to fetch BTC data", st, true))
      ∧ (∀ bitcoin : List (String × JPrice),
           btcData now st (.okBody (some bitcoin))
             = (.ok (mkBtcData bitcoin), ⟨some (mkBtcData bitcoin), now⟩, true))
      ∧ (∀ bitcoin : List (String × JPrice),
           bitcoin.lookup "aud" = none →
           ∃ e, (mkBtcData bitcoin).lookup "AUD" = some e ∧ e.price = none) := by
  intro now st hstale
  refine ⟨?_, ?_, ?_, ?_⟩
  · rw [btcData_stale now st _ hstale]; rfl
  · rw [btcData_stale now st _ hstale]; rfl
  · intro bitcoin; rw [btcData_stale now st _ hstale]; rfl
  · intro bitcoin haud
    refine ⟨⟨bitcoin.lookup "aud", bitcoin.lookup "aud_24h_change",
             bitcoin.lookup "aud_market_cap"⟩, rfl, haud⟩

/-- Witness for C8 (amended): from a cold state, an upstream failure
yields the 500 error with the state untouched, and a body missing the
`aud` field yields an `AUD` entry with an undefined price instead of an
error. -/
theorem c8_witness :
    btcData 0 ⟨none, 0⟩ .fail = (.serverError "Failed to fetch BTC data", ⟨none, 0⟩, true)
  ∧ ∃ e, (mkBtcData [("usd", .jnum 65000)]).lookup "AUD" = some e ∧ e.price = none :=
  ⟨(c8_amended_error_handling 0 ⟨none, 0⟩ (Or.inl rfl)).1,
   (c8_amended_error_handling 0 ⟨none, 0⟩ (Or.inl rfl)).2.2.2 [("usd", .jnum 65000)] rfl⟩

/-- C9 — When a refresh is aborted by an upstream failure (non-success
status / transport error, or a body without the `bitcoin` section), the
request answers the 500 error outright: the stale cached value is not
served, and `cachedBtcData` and `lastFetchTime` are left exactly as
they were. -/
theorem c9_fail_no_fallback :
    ∀ (now : Int) (st : LiveState) (up : LiveUpstream),
      (st.cachedBtcData = none ∨ cacheDurationMs ≤ now - st.lastFetchTime) →
      (up = .fail ∨ up = .okBody none) →
      btcData now st up = (.serverError "Failed to fetch BTC data", st, true) := by
  intro now st up hstale hup
  rw [btcData_stale now st up hstale]
  rcases hup with h | h <;> subst h <;> rfl

/-- Witness for C9: a stale cached payload is present, the upstream
fails, the response is the 500 error and the state (including the stale
payload) is unchanged. -/
theorem c9_witness :
    btcData 600000 ⟨some [("USD", ⟨some (.jnum 1), none, none⟩)], 0⟩ .fail
      = (.serverError "Failed to fetch BTC data",
         ⟨some [("USD", ⟨some (.jnum 1), none, none⟩)], 0⟩, true) :=
  c9_fail_no_fallback 600000 _ .fail (Or.inr (by decide)) (Or.inl rfl)

/-- C10 — The historical currency filter keeps a requested currency
exactly when its upstream price is present and truthy, so a price of 0
(or null) is silently omitted; concretely, `currency=usd` with upstream
price 0 fails with the no-data 400 even though the price-data section
exists, and with the full default set a 0-priced usd is dropped from
the returned prices while a truthy eur is kept. -/
theorem c10_truthy_price_filter :
    (∀ (ap : List (String × JPrice)) (cs : List String) (c : String) (v : JPrice),
       (c, v) ∈ filterPrices ap cs
         ↔ c ∈ cs ∧ ap.lookup c = some v ∧ truthy v = true)
  ∧ (btcPriceHistory 0 [] "19-05-2025" (some "usd") (.okBody (some [("usd", .jnum 0)]))
       = (.badRequest "No supported currencies found for this date", [], true))
  ∧ ((btcPriceHistory 0 [] "19-05-2025" none
        (.okBody (some [("usd", .jnum 0), ("eur", .jnum 100)]))).1
       = .ok ⟨"19-05-2025", [("eur", .jnum 100)]⟩) := by
  refine ⟨?_, by decide, by decide⟩
  intro ap cs c v
  simp only [filterPrices, List.mem_filterMap]
  constructor
  · rintro ⟨c', hc', hfc⟩
    cases hl : ap.lookup c' with
    | none => simp [hl] at hfc
    | some w =>
      rw [hl] at hfc
      by_cases ht : truthy w = true
      · simp [ht] at hfc
        obtain ⟨hc, hv⟩ := hfc
        subst hc
        subst hv
        exact ⟨hc', hl, ht⟩
      · simp [ht] at hfc
  · rintro ⟨hmem, hl, ht⟩
    exact ⟨c, hmem, by simp [hl, ht]⟩

end SatsStacker
